import Mathlib

/-!
Verification of the in-memory chat/playback polling layer of the Self-Cinema
backend (`backend/main.py`): `ChatRoomStore`, `PlaybackStore` and the three
HTTP handlers `post_chat_message`, `get_chat_messages`, `get_playback`.

Python values are embedded shallowly:
* `datetime` values become `PyDatetime`: a time value on a common microsecond
  scale (UTC offsets already folded in) plus the timezone-awareness flag.
  Python refuses to order-compare a naive and an aware datetime (`TypeError`),
  which the fallible comparison `pyGT` reflects.
* `collections.deque(maxlen = n)` becomes a list together with the
  append-then-pop-left step `dequeAppend`.
* HTTP error responses become `Except Nat` values carrying the status code
  (400 validation, 404 not found, 500 for an uncaught exception).
-/

namespace SelfCinema

/-- Model of a Python `datetime`: comparable time value (microseconds, offsets
already applied) plus whether the value is timezone-aware. -/
structure PyDatetime where
  value : Int
  aware : Bool
deriving DecidableEq

/-- Python `a > b` on datetimes: defined when both are naive or both aware,
otherwise it raises `TypeError` (modelled as `Except.error ()`). -/
def pyGT (a b : PyDatetime) : Except Unit Bool :=
  if a.aware = b.aware then Except.ok (decide (b.value < a.value))
  else Except.error ()

/-- The `ChatMessage` pydantic model from `backend/main.py`. -/
structure ChatMessage where
  id : String
  sender : String
  content : String
  timestamp : PyDatetime
  type : String
deriving DecidableEq

/-- One `collections.deque(maxlen = n).append x` step: the element is appended
on the right and, when the length would exceed `n`, the leftmost (oldest)
element is popped. -/
def dequeAppend (n : Nat) (l : List ChatMessage) (x : ChatMessage) : List ChatMessage :=
  let l2 := l ++ [x]
  if n < l2.length then l2.tail else l2

/-- In-memory chat store (`ChatRoomStore` in `backend/main.py`): a map from a
room identifier to its bounded message deque, plus the capacity. -/
structure ChatRoomStore where
  rooms : String → Option (List ChatMessage)
  max_messages : Nat

/-- `ChatRoomStore(max_messages = n)`: no rooms yet. -/
def ChatRoomStore.init (n : Nat) : ChatRoomStore :=
  { rooms := fun _ => none, max_messages := n }

/-- The module-level `chat_store = ChatRoomStore()` with default capacity 200. -/
def chat_store : ChatRoomStore := ChatRoomStore.init 200

/-- `ChatRoomStore.add_message`: create the room's deque if absent, then
append with ring-buffer semantics.  The source also returns the message
unchanged; the model returns the new store. -/
def ChatRoomStore.add_message (s : ChatRoomStore) (room : String) (m : ChatMessage) :
    ChatRoomStore :=
  let log := (s.rooms room).getD []
  { s with
    rooms := fun r => if r = room then some (dequeAppend s.max_messages log m) else s.rooms r }

/-- The list comprehension `[msg for msg in messages if msg.timestamp > since]`:
evaluated left to right, raising as soon as one comparison raises. -/
def filterSince (since : PyDatetime) : List ChatMessage → Except Unit (List ChatMessage)
  | [] => Except.ok []
  | m :: rest => do
    let keep ← pyGT m.timestamp since
    let tl ← filterSince since rest
    pure (if keep then m :: tl else tl)

/-- `ChatRoomStore.get_messages`: unknown room yields an empty list, otherwise
the full snapshot or the strictly-after-`since` filtering (which can raise a
`TypeError` on a naive/aware comparison, hence the `Except`). -/
def ChatRoomStore.get_messages (s : ChatRoomStore) (room : String)
    (since : Option PyDatetime) : Except Unit (List ChatMessage) :=
  match s.rooms room with
  | none => Except.ok []
  | some messages =>
    match since with
    | none => Except.ok messages
    | some t => filterSince t messages

/-- The `PlaybackState` pydantic model: url, update instant, version. -/
structure PlaybackState where
  url : String
  updated_at : Int
  version : Nat
deriving DecidableEq

/-- In-memory playback store (`PlaybackStore` in `backend/main.py`). -/
structure PlaybackStore where
  rooms : String → Option PlaybackState

/-- `PlaybackStore()`: no rooms yet. -/
def PlaybackStore.init : PlaybackStore := { rooms := fun _ => none }

/-- `PlaybackStore.update`: read the room's prior state, bump the version
(1 when absent), write the fresh state; returns the new state and the new
store.  `now` stands for `datetime.utcnow()`. -/
def PlaybackStore.update (s : PlaybackStore) (room url : String) (now : Int) :
    PlaybackState × PlaybackStore :=
  let state := s.rooms room
  let version := match state with
    | none => 1
    | some st => st.version + 1
  let new_state : PlaybackState := { url := url, updated_at := now, version := version }
  (new_state, { rooms := fun r => if r = room then some new_state else s.rooms r })

/-- `PlaybackStore.get`: the current state, or `none` when never updated. -/
def PlaybackStore.get (s : PlaybackStore) (room : String) : Option PlaybackState :=
  s.rooms room

/-- The fields of the ORM `Episode` row that `get_playback` consults. -/
structure Episode where
  series_id : String
  episode : Int
  video_url : String
deriving DecidableEq

/-! ### Basic facts about the deque step -/

theorem dequeAppend_eq (n : Nat) (l : List ChatMessage) (x : ChatMessage) :
    dequeAppend n l x = if n < l.length + 1 then (l ++ [x]).tail else l ++ [x] := by
  unfold dequeAppend
  simp

theorem dequeAppend_length_le {n : Nat} {l : List ChatMessage} (x : ChatMessage)
    (h : l.length ≤ n) : (dequeAppend n l x).length ≤ n := by
  rw [dequeAppend_eq]
  by_cases hc : n < l.length + 1
  · simp [hc]
    omega
  · simp [hc]
    omega

theorem foldl_dequeAppend (n : Nat) :
    ∀ (msgs l : List ChatMessage), l.length ≤ n →
      List.foldl (dequeAppend n) l msgs = (l ++ msgs).drop (l.length + msgs.length - n) := by
  intro msgs
  induction msgs with
  | nil =>
    intro l hl
    simp only [List.foldl_nil, List.append_nil, List.length_nil]
    have h0 : l.length + 0 - n = 0 := by omega
    rw [h0, List.drop_zero]
  | cons x xs ih =>
    intro l hl
    rw [List.foldl_cons]
    by_cases hfull : l.length < n
    · have hstep : dequeAppend n l x = l ++ [x] := by
        rw [dequeAppend_eq]
        have hc : ¬ n < l.length + 1 := by omega
        simp [hc]
      rw [hstep, ih (l ++ [x]) (by simp; omega)]
      have harr : (l ++ [x]).length + xs.length - n = l.length + (x :: xs).length - n := by
        simp
        omega
      rw [harr, List.append_assoc]
      simp
    · have hlen : l.length = n := by omega
      have hstep : dequeAppend n l x = (l ++ [x]).drop 1 := by
        rw [dequeAppend_eq]
        have hc : n < l.length + 1 := by omega
        simp [hc, ← List.drop_one]
      rw [hstep, ih ((l ++ [x]).drop 1) (by simp; omega)]
      rw [show ((l ++ [x]).drop 1) ++ xs = ((l ++ [x]) ++ xs).drop 1 by
            conv_rhs => rw [List.drop_append_eq_append_drop]
            have h2 : 1 - (l ++ [x]).length = 0 := by simp
            rw [h2, List.drop_zero]]
      rw [List.drop_drop]
      rw [show (l ++ [x]) ++ xs = l ++ (x :: xs) by simp]
      congr 1
      simp
      omega

/-! ### Sequences of `add_message` calls -/

/-- Apply a sequence of `add_message` calls, each naming its target room. -/
def addAll (s : ChatRoomStore) (ops : List (String × ChatMessage)) : ChatRoomStore :=
  ops.foldl (fun st op => st.add_message op.1 op.2) s

/-- Apply a sequence of `add_message` calls, all on the same room. -/
def addRoom (s : ChatRoomStore) (room : String) (msgs : List ChatMessage) : ChatRoomStore :=
  addAll s (msgs.map (fun m => (room, m)))

/-- The messages of `ops` that target `room`, in call order. -/
def selRoom (room : String) (ops : List (String × ChatMessage)) : List ChatMessage :=
  (ops.filter (fun p => decide (p.1 = room))).map Prod.snd

theorem add_message_rooms_self (s : ChatRoomStore) (room : String) (m : ChatMessage) :
    (s.add_message room m).rooms room =
      some (dequeAppend s.max_messages ((s.rooms room).getD []) m) := by
  simp [ChatRoomStore.add_message]

theorem add_message_rooms_ne (s : ChatRoomStore) (room : String) (m : ChatMessage)
    (r : String) (h : r ≠ room) : (s.add_message room m).rooms r = s.rooms r := by
  simp [ChatRoomStore.add_message, h]

theorem add_message_max (s : ChatRoomStore) (room : String) (m : ChatMessage) :
    (s.add_message room m).max_messages = s.max_messages := rfl

theorem selRoom_map_self (room : String) (msgs : List ChatMessage) :
    selRoom room (msgs.map (fun m => (room, m))) = msgs := by
  induction msgs with
  | nil => simp [selRoom]
  | cons m rest ih => simpa [selRoom] using ih

theorem selRoom_eq_nil_of_untouched (room : String) (ops : List (String × ChatMessage))
    (h : ∀ op ∈ ops, op.1 ≠ room) : selRoom room ops = [] := by
  induction ops with
  | nil => simp [selRoom]
  | cons op rest ih =>
    have h1 : op.1 ≠ room := h op (List.mem_cons_self op rest)
    have h2 : ∀ p ∈ rest, p.1 ≠ room := fun p hp => h p (List.mem_cons_of_mem op hp)
    simpa [selRoom, h1] using ih h2

theorem addAll_rooms (room : String) :
    ∀ (ops : List (String × ChatMessage)) (s : ChatRoomStore),
      (addAll s ops).rooms room =
        if selRoom room ops = [] then s.rooms room
        else some (List.foldl (dequeAppend s.max_messages)
                      ((s.rooms room).getD []) (selRoom room ops)) := by
  intro ops
  induction ops with
  | nil =>
    intro s
    simp [addAll, selRoom]
  | cons op rest ih =>
    intro s
    obtain ⟨r, m⟩ := op
    rw [show addAll s ((r, m) :: rest) = addAll (s.add_message r m) rest from rfl]
    by_cases hr : r = room
    · subst hr
      have hsel : selRoom r ((r, m) :: rest) = m :: selRoom r rest := by
        simp [selRoom]
      rw [ih (s.add_message r m), hsel]
      by_cases hrest : selRoom r rest = []
      · simp [hrest, add_message_rooms_self, add_message_max]
      · simp [hrest, add_message_rooms_self, add_message_max]
    · have hsel : selRoom room ((r, m) :: rest) = selRoom room rest := by
        simp [selRoom, hr]
      have hne : room ≠ r := fun hh => hr hh.symm
      rw [ih (s.add_message r m), hsel, add_message_rooms_ne s r m room hne,
        add_message_max]

/--
C1: for every room and every sequence of N+k `add_message` calls on a
`ChatRoomStore` of capacity N, the stored log length is exactly
min(N+k, N) = N and the log holds the N most recent messages in arrival
order (first conjunct: the log is `msgs.drop k`, whose length is N); when
the log is full an append evicts exactly the oldest entry (second
conjunct); and the capacity is never exceeded in any state reachable by
`add_message` calls (third conjunct).
-/
theorem chat_log_fifo_ring (N : Nat) :
    (∀ (room : String) (msgs : List ChatMessage) (k : Nat),
       msgs.length = N + k →
       (addRoom (ChatRoomStore.init N) room msgs).get_messages room none =
         Except.ok (msgs.drop k))
    ∧ (∀ (s : ChatRoomStore) (room : String) (m : ChatMessage) (log : List ChatMessage),
       s.max_messages = N → s.rooms room = some log → log.length = N → 0 < N →
       (s.add_message room m).rooms room = some (log.tail ++ [m]))
    ∧ (∀ (ops : List (String × ChatMessage)) (r : String) (log : List ChatMessage),
       (addAll (ChatRoomStore.init N) ops).rooms r = some log → log.length ≤ N) := by
  refine ⟨?part1, ?part2, ?part3⟩
  case part1 =>
    intro room msgs k hlen
    have h := addAll_rooms room (msgs.map (fun m => (room, m))) (ChatRoomStore.init N)
    rw [selRoom_map_self] at h
    by_cases hmsgs : msgs = []
    · subst hmsgs
      simp at hlen
      have hk : k = 0 := by omega
      subst hk
      simp [addRoom, ChatRoomStore.init] at h ⊢
      simp [ChatRoomStore.get_messages, h]
    · rw [if_neg hmsgs] at h
      have hfold := foldl_dequeAppend N msgs [] (by simp)
      simp only [List.nil_append, List.length_nil, Nat.zero_add] at hfold
      have hdrop : msgs.length - N = k := by omega
      rw [hdrop] at hfold
      simp only [ChatRoomStore.init] at h
      rw [show addRoom (ChatRoomStore.init N) room msgs
            = addAll (ChatRoomStore.init N) (msgs.map (fun m => (room, m))) from rfl]
      simp [ChatRoomStore.get_messages, h, hfold, ChatRoomStore.init]
  case part2 =>
    intro s room m log hmax hroom hlen hN
    rw [add_message_rooms_self, hroom]
    simp only [Option.getD_some]
    rw [hmax, dequeAppend_eq]
    have hc : N < log.length + 1 := by omega
    rw [if_pos hc]
    cases log with
    | nil => simp at hlen; omega
    | cons a as => simp
  case part3 =>
    intro ops r log h
    rw [addAll_rooms r ops (ChatRoomStore.init N)] at h
    by_cases hsel : selRoom r ops = []
    · rw [if_pos hsel] at h
      simp [ChatRoomStore.init] at h
    · rw [if_neg hsel] at h
      simp only [ChatRoomStore.init, Option.getD_none] at h
      rw [foldl_dequeAppend N (selRoom r ops) [] (by simp)] at h
      simp only [List.nil_append, List.length_nil, Nat.zero_add] at h
      have hlog : log = (selRoom r ops).drop ((selRoom r ops).length - N) :=
        (Option.some.injEq _ _ ▸ h).symm
      rw [hlog, List.length_drop]
      omega

/-- Concrete chat messages used by the witnesses. -/
def msgA : ChatMessage :=
  { id := "a", sender := "s1", content := "hello", timestamp := ⟨0, false⟩, type := "chat" }

/-- Second concrete chat message. -/
def msgB : ChatMessage :=
  { id := "b", sender := "s2", content := "hi", timestamp := ⟨1, false⟩, type := "chat" }

/-- Third concrete chat message. -/
def msgC : ChatMessage :=
  { id := "c", sender := "s3", content := "hey", timestamp := ⟨2, false⟩, type := "chat" }

/-- Witness for C1: capacity 2, three appends — the oldest message is gone,
the last two remain in order; a full log evicts exactly the head; a
reachable log respects the bound. -/
theorem chat_log_fifo_ring_witness :
    (addRoom (ChatRoomStore.init 2) "r" [msgA, msgB, msgC]).get_messages "r" none =
        Except.ok [msgB, msgC]
    ∧ ((addRoom (ChatRoomStore.init 2) "r" [msgA, msgB]).add_message "r" msgC).rooms "r" =
        some ([msgA, msgB].tail ++ [msgC])
    ∧ [msgA].length ≤ 2 :=
  ⟨(chat_log_fifo_ring 2).1 "r" [msgA, msgB, msgC] 1 (by decide),
   (chat_log_fifo_ring 2).2.1 (addRoom (ChatRoomStore.init 2) "r" [msgA, msgB]) "r" msgC
     [msgA, msgB] (by decide) (by decide) (by decide) (by decide),
   (chat_log_fifo_ring 2).2.2 [("r", msgA)] "r" [msgA] (by decide)⟩

instance {ε α : Type} [DecidableEq ε] [DecidableEq α] : DecidableEq (Except ε α) := fun a b =>
  match a, b with
  | Except.ok x, Except.ok y =>
    if h : x = y then Decidable.isTrue (h ▸ rfl)
    else Decidable.isFalse (fun hh => Except.noConfusion hh (fun hxy => h hxy))
  | Except.ok _, Except.error _ => Decidable.isFalse (fun hh => Except.noConfusion hh)
  | Except.error _, Except.ok _ => Decidable.isFalse (fun hh => Except.noConfusion hh)
  | Except.error e, Except.error f =>
    if h : e = f then Decidable.isTrue (h ▸ rfl)
    else Decidable.isFalse (fun hh => Except.noConfusion hh (fun hef => h hef))

/-! ### Sequences of `PlaybackStore.update` calls -/

/-- The version the next `update` will build on: 0 when the room is absent. -/
def curVersion (s : PlaybackStore) (room : String) : Nat :=
  match s.rooms room with
  | none => 0
  | some st => st.version

/-- Run a sequence of `update` calls on one room, collecting the returned
states in call order. Each list entry carries the url and the `utcnow` value
of that call. -/
def updSeq (s : PlaybackStore) (room : String) : List (String × Int) → List PlaybackState
  | [] => []
  | (u, t) :: rest =>
    let r := s.update room u t
    r.1 :: updSeq r.2 room rest

theorem update_version (s : PlaybackStore) (room u : String) (t : Int) :
    (s.update room u t).1.version = curVersion s room + 1 := by
  unfold PlaybackStore.update curVersion
  cases h : s.rooms room <;> simp [h]

theorem update_rooms_self (s : PlaybackStore) (room u : String) (t : Int) :
    (s.update room u t).2.rooms room = some (s.update room u t).1 := by
  simp [PlaybackStore.update]

theorem update_rooms_ne (s : PlaybackStore) (room u : String) (t : Int)
    (r : String) (h : r ≠ room) : (s.update room u t).2.rooms r = s.rooms r := by
  simp [PlaybackStore.update, h]

theorem curVersion_update (s : PlaybackStore) (room u : String) (t : Int) :
    curVersion (s.update room u t).2 room = curVersion s room + 1 := by
  rw [show curVersion (s.update room u t).2 room
        = (s.update room u t).1.version by
      unfold curVersion
      rw [update_rooms_self]]
  exact update_version s room u t

theorem updSeq_versions :
    ∀ (ops : List (String × Int)) (s : PlaybackStore) (room : String),
      (updSeq s room ops).map PlaybackState.version =
        List.range' (curVersion s room + 1) ops.length := by
  intro ops
  induction ops with
  | nil => intro s room; simp [updSeq]
  | cons p rest ih =>
    intro s room
    obtain ⟨u, t⟩ := p
    simp only [updSeq, List.map_cons, List.length_cons]
    rw [List.range'_succ, update_version, ih, curVersion_update]

/--
C2: starting from a store in which the room is absent, a sequence of M
`PlaybackStore.update` calls on that room returns version numbers
1, 2, ..., M in call order (`List.range' 1 M`): the first update creates
version 1 and each subsequent update increments the prior version by
exactly 1, never resetting or decrementing.
-/
theorem playback_version_sequence (s : PlaybackStore) (room : String)
    (ops : List (String × Int)) (h : s.rooms room = none) :
    (updSeq s room ops).map PlaybackState.version = List.range' 1 ops.length := by
  have hv := updSeq_versions ops s room
  rw [show curVersion s room = 0 by unfold curVersion; rw [h]] at hv
  simpa using hv

/-- Witness for C2: three updates on a fresh room give versions [1, 2, 3]. -/
theorem playback_version_sequence_witness :
    (updSeq PlaybackStore.init "r" [("u1", 0), ("u2", 1), ("u3", 2)]).map
        PlaybackState.version = List.range' 1 3 :=
  playback_version_sequence PlaybackStore.init "r" [("u1", 0), ("u2", 1), ("u3", 2)] rfl

/-! ### The since filter -/

theorem filterSince_ok (t : PyDatetime) :
    ∀ msgs : List ChatMessage, (∀ m ∈ msgs, m.timestamp.aware = t.aware) →
      filterSince t msgs =
        Except.ok (msgs.filter (fun m => decide (t.value < m.timestamp.value))) := by
  intro msgs
  induction msgs with
  | nil => intro _; simp [filterSince]
  | cons m rest ih =>
    intro h
    have hm : m.timestamp.aware = t.aware := h m (List.mem_cons_self m rest)
    have hrest : ∀ p ∈ rest, p.timestamp.aware = t.aware :=
      fun p hp => h p (List.mem_cons_of_mem m hp)
    simp only [filterSince]
    rw [show pyGT m.timestamp t = Except.ok (decide (t.value < m.timestamp.value)) by
        simp [pyGT, hm]]
    rw [ih hrest]
    by_cases hv : t.value < m.timestamp.value <;>
      simp [hv, Bind.bind, Except.bind, Pure.pure, Except.pure, List.filter_cons]

/--
C3 (amended): `get_messages(room, since = T)` returns exactly the
subsequence of `get_messages(room, since = None)` whose timestamps are
strictly greater than T (equal timestamps excluded), in insertion order —
PROVIDED every stored timestamp in the room has the same
timezone-awareness as T.  (Determinism on unchanged state is definitional:
the store operation is a pure function.)  Without the awareness proviso the
claim fails: Python raises `TypeError` when ordering a naive against an
aware datetime — see the counterexample.
-/
theorem get_messages_since_filter (s : ChatRoomStore) (room : String) (t : PyDatetime)
    (l : List ChatMessage) (hl : s.get_messages room none = Except.ok l)
    (hc : ∀ m ∈ l, m.timestamp.aware = t.aware) :
    s.get_messages room (some t) =
      Except.ok (l.filter (fun m => decide (t.value < m.timestamp.value))) := by
  unfold ChatRoomStore.get_messages at hl ⊢
  cases h : s.rooms room with
  | none =>
    rw [h] at hl
    have hnil : l = [] := by
      have := hl
      simp at this
      exact this
    subst hnil
    simp
  | some msgs =>
    rw [h] at hl
    have hml : msgs = l := by
      have := hl
      simp at this
      exact this
    subst hml
    exact filterSince_ok t msgs hc

/-- Witness for C3 (amended): all timestamps naive, since = 1 keeps only the
message with timestamp 2. -/
theorem get_messages_since_filter_witness :
    (addRoom chat_store "r" [msgA, msgB, msgC]).get_messages "r" (some ⟨1, false⟩) =
      Except.ok [msgC] :=
  get_messages_since_filter (addRoom chat_store "r" [msgA, msgB, msgC]) "r" ⟨1, false⟩
    [msgA, msgB, msgC] (by decide) (by decide)

/-- A store holding one message with a naive (server-assigned) timestamp. -/
def csMixed : ChatRoomStore := chat_store.add_message "r" msgA

/--
Counterexample to C3 as stated: for the reachable store `csMixed` (one
message, naive timestamp 0) and the aware timestamp T = ⟨1, true⟩, the
claim demands the filtered subsequence `Except.ok []`; the code instead
raises `TypeError` (modelled `Except.error ()`), because Python refuses to
order a naive against an aware datetime.
-/
theorem get_messages_mixed_awareness_raises :
    csMixed.get_messages "r" none = Except.ok [msgA]
    ∧ csMixed.get_messages "r" (some ⟨1, true⟩) = Except.error () := by
  decide

/-! ### The poll-playback endpoint -/

/-- Value of an ASCII digit character. -/
def digitVal (c : Char) : Nat := c.toNat - 48

/-- Whitespace stripped by Python `int(str)`. -/
def pyIsSpace (c : Char) : Bool :=
  c == ' ' || c == '\t' || c == '\n' || c == '\r' || c == Char.ofNat 11 || c == Char.ofNat 12

/-- Digit run of a Python integer literal after its first digit: ASCII digits
with single underscores allowed between digits. -/
def pyDigits (acc : Nat) : List Char → Option Nat
  | [] => some acc
  | c :: rest =>
    if c.isDigit then pyDigits (acc * 10 + digitVal c) rest
    else if c = '_' then
      match rest with
      | d :: rest2 => if d.isDigit then pyDigits (acc * 10 + digitVal d) rest2 else none
      | [] => none
    else none

/-- Digit run of a Python integer literal: at least one digit, which must not
be an underscore. -/
def pyDigitsStart : List Char → Option Nat
  | [] => none
  | c :: rest => if c.isDigit then pyDigits (digitVal c) rest else none

/-- Model of Python `int(str)` (ASCII profile): strip whitespace, optional
sign, then digits with single underscores between digits; anything else
raises `ValueError`, modelled as `none`. -/
def pyParseInt (s : String) : Option Int :=
  let cs := ((s.toList.dropWhile pyIsSpace).reverse.dropWhile pyIsSpace).reverse
  match cs with
  | '+' :: rest => (pyDigitsStart rest).map (fun n => (n : Int))
  | '-' :: rest => (pyDigitsStart rest).map (fun n => -(n : Int))
  | _ => (pyDigitsStart cs).map (fun n => (n : Int))

/-- The version guard of `get_playback`: `None` and `""` are skipped, any
other string must satisfy `int(version)`. -/
def versionAccepted (version : Option String) : Bool :=
  match version with
  | none => true
  | some v => decide (v = "") || (pyParseInt v).isSome

/-- The `PlaybackResponse` pydantic model. -/
structure PlaybackResponse where
  url : String
  updated_at : Int
  version : Nat
  is_same_source : Bool
  is_same_episode : Bool
deriving DecidableEq

/-- GET together/room/playback (`get_playback` in `backend/main.py`):
reject a non-integer non-empty version string (400); absent room state is
404; otherwise compare the viewer's current url with the host's, falling
back to the episode-catalog lookup (`db.query(Episode).filter(video_url ==
u).first()` becomes `List.find?`). -/
def get_playback (ps : PlaybackStore) (db : List Episode) (room : String)
    (version : Option String) (current_url : Option String) : Except Nat PlaybackResponse :=
  if versionAccepted version then
    match ps.get room with
    | none => Except.error 404
    | some state =>
      match current_url with
      | none =>
        Except.ok { url := state.url, updated_at := state.updated_at,
                    version := state.version, is_same_source := true,
                    is_same_episode := true }
      | some cu =>
        if cu = "" then
          Except.ok { url := state.url, updated_at := state.updated_at,
                      version := state.version, is_same_source := true,
                      is_same_episode := true }
        else if cu = state.url then
          Except.ok { url := state.url, updated_at := state.updated_at,
                      version := state.version, is_same_source := true,
                      is_same_episode := true }
        else
          let host_episode := db.find? (fun e => decide (e.video_url = state.url))
          let viewer_episode := db.find? (fun e => decide (e.video_url = cu))
          let is_same_episode : Bool :=
            match host_episode, viewer_episode with
            | some h, some v =>
              decide (h.series_id = v.series_id) && decide (h.episode = v.episode)
            | _, _ => false
          Except.ok { url := state.url, updated_at := state.updated_at,
                      version := state.version, is_same_source := false,
                      is_same_episode := is_same_episode }
  else Except.error 400

/--
C4: whenever the room has a playback state and the request passes the
version guard, polling with a current url equal to the host's url — or
with no current url at all (absent, or the empty string the code treats
as absent) — returns is_same_source = true and is_same_episode = true,
for every episode catalog `db` (the result does not mention `db`).
-/
theorem get_playback_same_source (ps : PlaybackStore) (db : List Episode) (room : String)
    (ver : Option String) (cur : Option String) (st : PlaybackState)
    (hst : ps.get room = some st) (hver : versionAccepted ver = true)
    (hcur : cur = none ∨ cur = some "" ∨ cur = some st.url) :
    get_playback ps db room ver cur =
      Except.ok { url := st.url, updated_at := st.updated_at, version := st.version,
                  is_same_source := true, is_same_episode := true } := by
  unfold get_playback
  rw [hver, hst]
  simp only [if_true]
  rcases hcur with h | h | h
  · subst h; simp
  · subst h; simp
  · subst h
    by_cases hu : st.url = "" <;> simp [hu]

/-- Concrete host-side episode row. -/
def epHostA : Episode :=
  { series_id := "S", episode := 3, video_url := "http://cdn1/e3.mp4" }

/-- Concrete viewer-side episode row: same series and episode, other url. -/
def epViewerB : Episode :=
  { series_id := "S", episode := 3, video_url := "http://cdn2/e3.mp4" }

/-- A playback store whose room "r" points at the host url. -/
def psHost : PlaybackStore := (PlaybackStore.init.update "r" "http://cdn1/e3.mp4" 7).2

/-- Witness for C4: matching current url yields both flags true even with a
nonempty catalog. -/
theorem get_playback_same_source_witness :
    get_playback psHost [epHostA, epViewerB] "r" (some "5") (some "http://cdn1/e3.mp4") =
      Except.ok { url := "http://cdn1/e3.mp4", updated_at := 7, version := 1,
                  is_same_source := true, is_same_episode := true } :=
  get_playback_same_source psHost [epHostA, epViewerB] "r" (some "5")
    (some "http://cdn1/e3.mp4") { url := "http://cdn1/e3.mp4", updated_at := 7, version := 1 }
    (by decide) (by decide) (Or.inr (Or.inr rfl))

/--
C5: with a playback state present and a viewer url that differs from the
host's, the response has is_same_source = false, and is_same_episode is
true exactly when both urls resolve in the episode catalog (first matching
row, as `first()` does) to rows with the same series identifier and the
same episode number; a failed lookup on either side forces false.
-/
theorem get_playback_episode_reconciliation (ps : PlaybackStore) (db : List Episode)
    (room : String) (ver : Option String) (cur : String) (st : PlaybackState)
    (hst : ps.get room = some st) (hver : versionAccepted ver = true)
    (hne : cur ≠ "") (hdiff : cur ≠ st.url) :
    ∃ b : Bool,
      get_playback ps db room ver (some cur) =
        Except.ok { url := st.url, updated_at := st.updated_at, version := st.version,
                    is_same_source := false, is_same_episode := b }
      ∧ (b = true ↔ ∃ eh ev : Episode,
            db.find? (fun e => decide (e.video_url = st.url)) = some eh
            ∧ db.find? (fun e => decide (e.video_url = cur)) = some ev
            ∧ eh.series_id = ev.series_id ∧ eh.episode = ev.episode) := by
  refine ⟨match db.find? (fun e => decide (e.video_url = st.url)),
            db.find? (fun e => decide (e.video_url = cur)) with
          | some h, some v =>
            decide (h.series_id = v.series_id) && decide (h.episode = v.episode)
          | _, _ => false, ?_, ?_⟩
  · unfold get_playback
    rw [hver, hst]
    simp [hne, hdiff]
  · cases h1 : db.find? (fun e => decide (e.video_url = st.url)) with
    | none => simp [h1]
    | some eh =>
      cases h2 : db.find? (fun e => decide (e.video_url = cur)) with
      | none => simp [h1, h2]
      | some ev =>
        simp [h1, h2]

/-- Witness for C5: two catalog rows for the same (series, episode) behind
different urls reconcile to is_same_episode = true. -/
theorem get_playback_episode_reconciliation_witness :
    ∃ b : Bool,
      get_playback psHost [epHostA, epViewerB] "r" none (some "http://cdn2/e3.mp4") =
        Except.ok { url := "http://cdn1/e3.mp4", updated_at := 7, version := 1,
                    is_same_source := false, is_same_episode := b }
      ∧ (b = true ↔ ∃ eh ev : Episode,
            [epHostA, epViewerB].find?
                (fun e => decide (e.video_url = "http://cdn1/e3.mp4")) = some eh
            ∧ [epHostA, epViewerB].find?
                (fun e => decide (e.video_url = "http://cdn2/e3.mp4")) = some ev
            ∧ eh.series_id = ev.series_id ∧ eh.episode = ev.episode) :=
  get_playback_episode_reconciliation psHost [epHostA, epViewerB] "r" none
    "http://cdn2/e3.mp4" { url := "http://cdn1/e3.mp4", updated_at := 7, version := 1 }
    (by decide) (by decide) (by decide) (by decide)

/-! ### Unknown rooms -/

/-- Apply a sequence of `update` calls, each naming its target room. -/
def applyUpdates (s : PlaybackStore) (ops : List (String × String × Int)) : PlaybackStore :=
  ops.foldl (fun st op => (st.update op.1 op.2.1 op.2.2).2) s

theorem applyUpdates_rooms_untouched (room : String) :
    ∀ (ops : List (String × String × Int)) (s : PlaybackStore),
      (∀ op ∈ ops, op.1 ≠ room) → (applyUpdates s ops).rooms room = s.rooms room := by
  intro ops
  induction ops with
  | nil => intro s _; rfl
  | cons op rest ih =>
    intro s h
    have h1 : op.1 ≠ room := h op (List.mem_cons_self op rest)
    have h2 : ∀ p ∈ rest, p.1 ≠ room := fun p hp => h p (List.mem_cons_of_mem op hp)
    rw [show applyUpdates s (op :: rest)
          = applyUpdates (s.update op.1 op.2.1 op.2.2).2 rest from rfl]
    rw [ih _ h2, update_rooms_ne _ _ _ _ _ (fun hh => h1 hh.symm)]

/--
C6: a room never targeted by any `add_message` has `get_messages` return
an empty sequence (no error) for every `since`; a room never targeted by
any `update` has `PlaybackStore.get` return `none`, the absent signal
distinct from any present state; and the poll-playback endpoint surfaces
that absence as the 404 "No playback state" rejection, distinct from the
400 validation error.
-/
theorem unknown_room_defaults (chatOps : List (String × ChatMessage))
    (pbOps : List (String × String × Int)) (db : List Episode) (room : String)
    (cur : Option String) (since : Option PyDatetime)
    (hc : ∀ op ∈ chatOps, op.1 ≠ room) (hp : ∀ op ∈ pbOps, op.1 ≠ room) :
    (addAll chat_store chatOps).get_messages room since = Except.ok []
    ∧ (applyUpdates PlaybackStore.init pbOps).get room = none
    ∧ get_playback (applyUpdates PlaybackStore.init pbOps) db room none cur =
        Except.error 404 := by
  have h1 : (addAll chat_store chatOps).rooms room = none := by
    rw [addAll_rooms room chatOps chat_store,
      if_pos (selRoom_eq_nil_of_untouched room chatOps hc)]
    rfl
  have h2 : (applyUpdates PlaybackStore.init pbOps).rooms room = none :=
    applyUpdates_rooms_untouched room pbOps PlaybackStore.init hp
  refine ⟨?_, h2, ?_⟩
  · unfold ChatRoomStore.get_messages
    rw [h1]
  · unfold get_playback
    simp [PlaybackStore.get, h2, versionAccepted]

/-- Witness for C6: activity on room "q" leaves room "r" empty and absent. -/
theorem unknown_room_defaults_witness :
    (addAll chat_store [("q", msgA)]).get_messages "r" none = Except.ok []
    ∧ (applyUpdates PlaybackStore.init [("q", "u", 0)]).get "r" = none
    ∧ get_playback (applyUpdates PlaybackStore.init [("q", "u", 0)]) [] "r" none none =
        Except.error 404 :=
  unknown_room_defaults [("q", msgA)] [("q", "u", 0)] [] "r" none none
    (by decide) (by decide)

/-- A playback store holding one state for room "r". -/
def psOne : PlaybackStore := (PlaybackStore.init.update "r" "http://x/1.mp4" 0).2

/--
Counterexample to C7 as stated: the empty string is not parseable as an
integer (`int("")` raises), yet `get_playback` accepts `version = ""`
instead of rejecting it — the guard `version not in (None, "")` skips it,
so the call returns the state normally.
-/
theorem empty_version_accepted :
    pyParseInt "" = none
    ∧ get_playback psOne [] "r" (some "") none =
        Except.ok { url := "http://x/1.mp4", updated_at := 0, version := 1,
                    is_same_source := true, is_same_episode := true } := by
  decide

/--
C7 (amended): the endpoint rejects with a 400 validation error every
NON-EMPTY version string not parseable as an integer; the empty string is
treated like an absent version; and every accepted version value has no
effect — the response is identical to the call that omits version, with no
blocking or diffing.
-/
theorem version_advisory (ps : PlaybackStore) (db : List Episode) (room : String)
    (cur : Option String) :
    (∀ v : String, v ≠ "" → pyParseInt v = none →
        get_playback ps db room (some v) cur = Except.error 400)
    ∧ (∀ v : String, v = "" ∨ (pyParseInt v).isSome = true →
        get_playback ps db room (some v) cur = get_playback ps db room none cur) := by
  constructor
  · intro v hv hparse
    have hacc : versionAccepted (some v) = false := by
      simp [versionAccepted, hv, hparse]
    unfold get_playback
    rw [hacc]
    simp
  · intro v hv
    have hacc : versionAccepted (some v) = true := by
      rcases hv with h | h
      · simp [versionAccepted, h]
      · simp [versionAccepted, h]
    unfold get_playback
    rw [hacc, show versionAccepted none = true from rfl]

/-- Witness for C7 (amended): "abc" is rejected with 400; "42" is accepted
and the response equals the version-less call. -/
theorem version_advisory_witness :
    get_playback psOne [] "r" (some "abc") none = Except.error 400
    ∧ get_playback psOne [] "r" (some "42") none = get_playback psOne [] "r" none none :=
  ⟨(version_advisory psOne [] "r" none).1 "abc" (by decide) (by decide),
   (version_advisory psOne [] "r" none).2 "42" (Or.inr (by decide))⟩

/-! ### The poll-chat endpoint

The `since` query string is normalised with `since.replace("Z", "+00:00")`
and fed to `datetime.fromisoformat`.  The parser below models the CPython
(3.11-era) acceptance of the common extended profile: `YYYY-MM-DD`,
optionally followed by a `T` or space separator, `HH:MM[:SS[.fff...]]`
(1–6 fractional digits) and an optional `±HH:MM[:SS]` offset.  The result
is the microsecond value (offset folded in, i.e. normalised to UTC) plus
the awareness flag. -/

/-- Parse exactly two ASCII digits. -/
def get2 : List Char → Option (Nat × List Char)
  | a :: b :: rest =>
    if a.isDigit && b.isDigit then some (digitVal a * 10 + digitVal b, rest) else none
  | _ => none

/-- Parse exactly four ASCII digits. -/
def get4 : List Char → Option (Nat × List Char)
  | a :: b :: c :: d :: rest =>
    if a.isDigit && b.isDigit && c.isDigit && d.isDigit then
      some (((digitVal a * 10 + digitVal b) * 10 + digitVal c) * 10 + digitVal d, rest)
    else none
  | _ => none

/-- Require one specific character. -/
def expectChar (c : Char) : List Char → Option (List Char)
  | x :: rest => if x = c then some rest else none
  | [] => none

/-- Gregorian leap year. -/
def isLeap (y : Nat) : Bool := y % 4 == 0 && (y % 100 != 0 || y % 400 == 0)

/-- Days in a month of the proleptic Gregorian calendar. -/
def daysInMonth (y m : Nat) : Nat :=
  if m = 2 then (if isLeap y then 29 else 28)
  else if m = 4 ∨ m = 6 ∨ m = 9 ∨ m = 11 then 30
  else 31

/-- Days in the year strictly before month `m`. -/
def daysBeforeMonth (y m : Nat) : Nat :=
  let base :=
    match m with
    | 1 => 0 | 2 => 31 | 3 => 59 | 4 => 90 | 5 => 120 | 6 => 151
    | 7 => 181 | 8 => 212 | 9 => 243 | 10 => 273 | 11 => 304 | _ => 334
  base + (if 2 < m then (if isLeap y then 1 else 0) else 0)

/-- Days from 0001-01-01 to the given proleptic-Gregorian date. -/
def toOrdinal (y m d : Nat) : Nat :=
  365 * (y - 1) + (y - 1) / 4 - (y - 1) / 100 + (y - 1) / 400 + daysBeforeMonth y m + (d - 1)

/-- Fractional seconds after the dot: 1–6 digits (extra digits truncated),
scaled to microseconds. -/
def parseFrac (cs : List Char) : Option (Nat × List Char) :=
  let digits := cs.takeWhile Char.isDigit
  let rest := cs.dropWhile Char.isDigit
  if digits.isEmpty then none
  else
    let six := digits.take 6
    let v := six.foldl (fun a c => a * 10 + digitVal c) 0
    some (v * 10 ^ (6 - six.length), rest)

/-- Optional `:SS[.ffffff]` part of a time. -/
def parseSecFrac : List Char → Option (Nat × Nat × List Char)
  | ':' :: cs2 =>
    match get2 cs2 with
    | none => none
    | some (s, cs3) =>
      match cs3 with
      | '.' :: cs4 =>
        match parseFrac cs4 with
        | none => none
        | some (us, cs5) => some (s, us, cs5)
      | _ => some (s, 0, cs3)
  | cs => some (0, 0, cs)

/-- UTC offset `±HH:MM[:SS]`, returned in seconds. -/
def parseOffset : List Char → Option (Int × List Char)
  | sign :: cs2 =>
    if sign = '+' ∨ sign = '-' then
      match get2 cs2 with
      | none => none
      | some (oh, cs3) =>
        match expectChar ':' cs3 with
        | none => none
        | some cs4 =>
          match get2 cs4 with
          | none => none
          | some (om, cs5) =>
            match cs5 with
            | ':' :: cs6 =>
              match get2 cs6 with
              | none => none
              | some (os, cs7) =>
                if oh ≤ 23 ∧ om ≤ 59 ∧ os ≤ 59 then
                  some ((if sign = '-' then -1 else 1) *
                    ((oh * 3600 + om * 60 + os : Nat) : Int), cs7)
                else none
            | _ =>
              if oh ≤ 23 ∧ om ≤ 59 then
                some ((if sign = '-' then -1 else 1) *
                  ((oh * 3600 + om * 60 : Nat) : Int), cs5)
              else none
    else none
  | [] => none

/-- Model of `datetime.fromisoformat` on the profile described above. -/
def fromisoformat (s : String) : Option PyDatetime := do
  let cs0 := s.toList
  let (y, cs1) ← get4 cs0
  let cs2 ← expectChar '-' cs1
  let (mo, cs3) ← get2 cs2
  let cs4 ← expectChar '-' cs3
  let (d, cs5) ← get2 cs4
  if 1 ≤ y ∧ 1 ≤ mo ∧ mo ≤ 12 ∧ 1 ≤ d ∧ d ≤ daysInMonth y mo then
    let dateUs : Int := ((toOrdinal y mo d : Nat) : Int) * 86400000000
    match cs5 with
    | [] => pure { value := dateUs, aware := false }
    | sep :: cs6 =>
      if sep = 'T' ∨ sep = ' ' then do
        let (hh, cs7) ← get2 cs6
        let cs8 ← expectChar ':' cs7
        let (mi, cs9) ← get2 cs8
        let (sec, us, cs10) ← parseSecFrac cs9
        if hh ≤ 23 ∧ mi ≤ 59 ∧ sec ≤ 59 then
          let timeUs : Int :=
            dateUs + ((hh * 3600 + mi * 60 + sec : Nat) : Int) * 1000000 + (us : Int)
          match cs10 with
          | [] => pure { value := timeUs, aware := false }
          | _ => do
            let (offSec, cs11) ← parseOffset cs10
            match cs11 with
            | [] => pure { value := timeUs - offSec * 1000000, aware := true }
            | _ => none
        else none
      else none
  else none

/-- Model of `since.replace("Z", "+00:00")`: the pattern is a single
character, so the substitution is per character, every occurrence. -/
def pyReplaceZ (s : String) : String :=
  String.mk (s.toList.foldr
    (fun c acc =>
      if c = 'Z' then '+' :: '0' :: '0' :: ':' :: '0' :: '0' :: acc else c :: acc)
    [])

/-- GET together/room/messages (`get_chat_messages` in `backend/main.py`):
the try/except around `fromisoformat` turns a parse failure into a 400;
any exception escaping `get_messages` (the naive/aware `TypeError`) is not
caught and surfaces as an internal error, modelled 500. -/
def get_chat_messages (cs : ChatRoomStore) (room : String) :
    Option String → Except Nat (List ChatMessage)
  | none =>
    match cs.get_messages room none with
    | Except.ok l => Except.ok l
    | Except.error _ => Except.error 500
  | some s =>
    if s = "" then
      match cs.get_messages room none with
      | Except.ok l => Except.ok l
      | Except.error _ => Except.error 500
    else
      match fromisoformat (pyReplaceZ s) with
      | none => Except.error 400
      | some t =>
        match cs.get_messages room (some t) with
        | Except.ok l => Except.ok l
        | Except.error _ => Except.error 500

/--
C8 (amended): the poll-chat endpoint accepts every `since` string the
modelled ISO-8601 profile parses — fractional-second and zone-aware forms
included (trailing Z is first rewritten to +00:00) — and returns the
room's messages with timestamp strictly after `since`, in log order,
PROVIDED the parsed `since` has the same timezone-awareness as every
stored timestamp; a malformed `since` is rejected with a per-request 400
validation error.  Without the awareness proviso the claim fails: an
aware `since` against a naive stored timestamp makes the comparison raise
`TypeError` (surfaced as a 500, not a sequence) — see the counterexample.
-/
theorem chat_poll_since (cs : ChatRoomStore) (room : String) (s : String) :
    (∀ t : PyDatetime, s ≠ "" → fromisoformat (pyReplaceZ s) = some t →
       (∀ m ∈ (cs.rooms room).getD [], m.timestamp.aware = t.aware) →
       get_chat_messages cs room (some s) =
         Except.ok (((cs.rooms room).getD []).filter
           (fun m => decide (t.value < m.timestamp.value))))
    ∧ (s ≠ "" → fromisoformat (pyReplaceZ s) = none →
       get_chat_messages cs room (some s) = Except.error 400)
    ∧ get_chat_messages cs room none = Except.ok ((cs.rooms room).getD []) := by
  refine ⟨?ok, ?bad, ?noSince⟩
  case ok =>
    intro t hs hparse hcomp
    rw [show get_chat_messages cs room (some s)
          = if s = "" then
              (match cs.get_messages room none with
               | Except.ok l => Except.ok l
               | Except.error _ => Except.error 500)
            else
              (match fromisoformat (pyReplaceZ s) with
               | none => Except.error 400
               | some t =>
                 match cs.get_messages room (some t) with
                 | Except.ok l => Except.ok l
                 | Except.error _ => Except.error 500) from rfl]
    rw [if_neg hs, hparse]
    cases h : cs.rooms room with
    | none =>
      simp [ChatRoomStore.get_messages, h]
    | some msgs =>
      have hmsgs : ∀ m ∈ msgs, m.timestamp.aware = t.aware := by
        simpa [h] using hcomp
      simp only [ChatRoomStore.get_messages, h, Option.getD_some]
      rw [filterSince_ok t msgs hmsgs]
  case bad =>
    intro hs hparse
    rw [show get_chat_messages cs room (some s)
          = if s = "" then
              (match cs.get_messages room none with
               | Except.ok l => Except.ok l
               | Except.error _ => Except.error 500)
            else
              (match fromisoformat (pyReplaceZ s) with
               | none => Except.error 400
               | some t =>
                 match cs.get_messages room (some t) with
                 | Except.ok l => Except.ok l
                 | Except.error _ => Except.error 500) from rfl]
    rw [if_neg hs, hparse]
  case noSince =>
    rw [show get_chat_messages cs room none
          = (match cs.get_messages room none with
             | Except.ok l => Except.ok l
             | Except.error _ => Except.error 500) from rfl]
    cases h : cs.rooms room with
    | none => simp [ChatRoomStore.get_messages, h]
    | some msgs => simp [ChatRoomStore.get_messages, h]

/-- First aware-timestamped message for the C8 witness. -/
def msgAware1 : ChatMessage :=
  { id := "w1", sender := "s", content := "one", timestamp := ⟨1000000, true⟩, type := "chat" }

/-- Second aware-timestamped message for the C8 witness. -/
def msgAware2 : ChatMessage :=
  { id := "w2", sender := "s", content := "two", timestamp := ⟨2000000, true⟩, type := "chat" }

/-- A room whose log holds two aware-timestamped messages. -/
def csAware : ChatRoomStore := addRoom chat_store "r" [msgAware1, msgAware2]

/-- Witness for C8 (amended): a fractional, Z-suffixed `since`
(0001-01-01T00:00:01.500Z, i.e. 1500000 microseconds, aware) keeps exactly
the later message; a malformed `since` is a 400. -/
theorem chat_poll_since_witness :
    get_chat_messages csAware "r" (some "0001-01-01T00:00:01.500Z") = Except.ok [msgAware2]
    ∧ get_chat_messages csAware "r" (some "not-a-date") = Except.error 400 :=
  ⟨((chat_poll_since csAware "r" "0001-01-01T00:00:01.500Z").1 ⟨1500000, true⟩
      (by decide) (by decide) (by decide)).trans (by decide),
   (chat_poll_since csAware "r" "not-a-date").2.1 (by decide) (by decide)⟩

/--
Counterexample to C8 as stated: "1970-01-01T00:00:01Z" is a well-formed
zone-aware ISO-8601 timestamp (the parse succeeds and is aware), yet
polling the reachable store `csMixed` (one naive-timestamped message) with
it yields the uncaught `TypeError` (500) instead of the filtered message
sequence, and that failure is not a validation rejection.
-/
theorem chat_poll_aware_since_raises :
    (fromisoformat (pyReplaceZ "1970-01-01T00:00:01Z")).map PyDatetime.aware = some true
    ∧ get_chat_messages csMixed "r" (some "1970-01-01T00:00:01Z") = Except.error 500 := by
  decide

/-! ### The post-chat endpoint -/

/-- The `ChatMessageCreate` pydantic model: every field except content may be
absent. -/
structure ChatMessageCreate where
  sender : Option String
  content : String
  timestamp : Option PyDatetime
  type : Option String
  id : Option String
deriving DecidableEq

/-- Python `x or d` for an optional string: `None` and `""` are falsy. -/
def pyOr (o : Option String) (d : String) : String :=
  match o with
  | none => d
  | some v => if v = "" then d else v

/-- The message `post_chat_message` constructs: `payload.id or str(uuid4())`,
`payload.sender or "匿名用户"`, `payload.timestamp or datetime.utcnow()`,
`payload.type or "chat"`.  `gen_id` stands for the uuid the server would
generate and `now` for `utcnow()` (naive). -/
def buildMessage (payload : ChatMessageCreate) (gen_id : String) (now : Int) : ChatMessage :=
  { id := pyOr payload.id gen_id
    sender := pyOr payload.sender "匿名用户"
    content := payload.content
    timestamp := payload.timestamp.getD { value := now, aware := false }
    type := pyOr payload.type "chat" }

/-- POST together/room/messages (`post_chat_message` in `backend/main.py`):
empty content is a 400, otherwise the built message is appended to the
room's log and returned. -/
def post_chat_message (cs : ChatRoomStore) (room_hash : String) (payload : ChatMessageCreate)
    (gen_id : String) (now : Int) : Except Nat (ChatMessage × ChatRoomStore) :=
  if payload.content = "" then Except.error 400
  else
    let message := buildMessage payload gen_id now
    Except.ok (message, cs.add_message room_hash message)

/-- One invocation of the post-chat endpoint, with the nondeterministic
inputs (generated uuid, clock) made explicit. -/
structure PostOp where
  room : String
  payload : ChatMessageCreate
  gen_id : String
  now : Int
deriving DecidableEq

/-- Apply one post: a rejected request leaves the store unchanged. -/
def applyPost (cs : ChatRoomStore) (op : PostOp) : ChatRoomStore :=
  match post_chat_message cs op.room op.payload op.gen_id op.now with
  | Except.ok r => r.2
  | Except.error _ => cs

/-- Apply a sequence of posts. -/
def applyPosts (cs : ChatRoomStore) (ops : List PostOp) : ChatRoomStore :=
  ops.foldl applyPost cs

/-- The add_message call a post performs, if any. -/
def postToAdd (op : PostOp) : Option (String × ChatMessage) :=
  if op.payload.content = "" then none
  else some (op.room, buildMessage op.payload op.gen_id op.now)

/-- The messages the accepted posts of `ops` store into `room`, in order. -/
def roomMessages (room : String) (ops : List PostOp) : List ChatMessage :=
  selRoom room (ops.filterMap postToAdd)

theorem applyPosts_eq_addAll :
    ∀ (ops : List PostOp) (cs : ChatRoomStore),
      applyPosts cs ops = addAll cs (ops.filterMap postToAdd) := by
  intro ops
  induction ops with
  | nil => intro cs; rfl
  | cons op rest ih =>
    intro cs
    rw [show applyPosts cs (op :: rest) = applyPosts (applyPost cs op) rest from rfl]
    by_cases h : op.payload.content = ""
    · have e1 : applyPost cs op = cs := by
        simp [applyPost, post_chat_message, h]
      have e2 : postToAdd op = none := by
        simp [postToAdd, h]
      rw [e1, ih]
      simp only [List.filterMap_cons, e2]
    · have e1 : applyPost cs op
          = cs.add_message op.room (buildMessage op.payload op.gen_id op.now) := by
        simp [applyPost, post_chat_message, h]
      have e2 : postToAdd op
          = some (op.room, buildMessage op.payload op.gen_id op.now) := by
        simp [postToAdd, h]
      rw [e1, ih]
      simp only [List.filterMap_cons, e2]
      rfl

/--
C9 (amended): a room's stored message identifiers are pairwise distinct
PROVIDED the effective identifiers of the accepted posts targeting that
room — the client-supplied id when present and non-empty, otherwise the
server-generated uuid — are pairwise distinct (for server-generated uuids
freshness gives this); the store itself never duplicates or reuses an id.
The unconditional claim fails: the code never checks a client-supplied id
against the log, so a reused client id is stored twice — see the
counterexample.
-/
theorem chat_ids_unique_when_distinct (ops : List PostOp) (room : String)
    (h : ((roomMessages room ops).map ChatMessage.id).Pairwise (fun a b => a ≠ b)) :
    ∀ log, (applyPosts chat_store ops).rooms room = some log →
      (log.map ChatMessage.id).Pairwise (fun a b => a ≠ b) := by
  intro log hlog
  rw [applyPosts_eq_addAll, addAll_rooms room _ chat_store] at hlog
  by_cases hsel : selRoom room (ops.filterMap postToAdd) = []
  · rw [if_pos hsel] at hlog
    simp [chat_store, ChatRoomStore.init] at hlog
  · rw [if_neg hsel] at hlog
    simp only [chat_store, ChatRoomStore.init, Option.getD_none] at hlog
    rw [foldl_dequeAppend 200 _ [] (by simp)] at hlog
    simp only [List.nil_append, List.length_nil, Nat.zero_add] at hlog
    have hlog2 : log
        = (selRoom room (ops.filterMap postToAdd)).drop
            ((selRoom room (ops.filterMap postToAdd)).length - 200) :=
      (Option.some.injEq _ _ ▸ hlog).symm
    rw [hlog2, List.map_drop]
    exact List.Pairwise.sublist (List.drop_sublist _ _) h

/-- A post with client id "x1". -/
def postOp1 : PostOp :=
  { room := "r"
    payload := { sender := some "alice", content := "hi", timestamp := none,
                 type := some "chat", id := some "x1" }
    gen_id := "g1", now := 0 }

/-- A post with client id "x2". -/
def postOp2 : PostOp :=
  { room := "r"
    payload := { sender := some "bob", content := "yo", timestamp := none,
                 type := some "chat", id := some "x2" }
    gen_id := "g2", now := 1 }

/-- Witness for C9 (amended): two posts with distinct client ids leave a log
whose ids are pairwise distinct. -/
theorem chat_ids_unique_when_distinct_witness :
    ([buildMessage postOp1.payload "g1" 0, buildMessage postOp2.payload "g2" 1].map
        ChatMessage.id).Pairwise (fun a b => a ≠ b) :=
  chat_ids_unique_when_distinct [postOp1, postOp2] "r" (by decide)
    [buildMessage postOp1.payload "g1" 0, buildMessage postOp2.payload "g2" 1] (by decide)

/-- A post reusing the client id "x". -/
def postDupA : PostOp :=
  { room := "r"
    payload := { sender := some "alice", content := "one", timestamp := none,
                 type := some "chat", id := some "x" }
    gen_id := "g1", now := 0 }

/-- A second post reusing the same client id "x". -/
def postDupB : PostOp :=
  { room := "r"
    payload := { sender := some "bob", content := "two", timestamp := none,
                 type := some "chat", id := some "x" }
    gen_id := "g2", now := 1 }

/--
Counterexample to C9 as stated: two accepted posts supplying the same
client id "x" produce a reachable store whose room log holds the ids
["x", "x"] — not pairwise distinct, so the identifier is NOT unique within
its room when clients reuse ids.
-/
theorem duplicate_client_ids_stored :
    (((applyPosts chat_store [postDupA, postDupB]).rooms "r").getD []).map ChatMessage.id
      = ["x", "x"]
    ∧ ¬ ((((applyPosts chat_store [postDupA, postDupB]).rooms "r").getD []).map
          ChatMessage.id).Pairwise (fun a b => a ≠ b) := by
  decide

end SelfCinema
